import Mathlib

/-!
Verification of the UptimeProof proof-of-availability verifier
(`verifier/poa_verify_full.py`) against its natural-language specification.

The Python source is shallowly embedded below: pure helpers become Lean
functions over `List Char` / `String`; the external effects (the `dig`
subprocess, the filesystem, environment variables) are passed in explicitly
as values or oracles, so every definition is executable.  Python `int` is
modelled as `Int` (arbitrary precision in both), Python truthiness of
strings/lists as emptiness tests, and a raised exception as the `.error`
branch of an `Except`.  Line numbers refer to `poa_verify_full.py`.
-/

namespace UptimeProof

/-! ## Constants (lines 25-27) -/

def LOOKBACK_FILES : Nat := 300

def WARN_SKEW_SECONDS : Int := 10 * 60

def FAIL_SKEW_SECONDS : Int := 60 * 60

/-! ## Python string primitives used by the script

These model the Python `str` methods the script calls (`strip`, `split`,
`splitlines`, `rstrip`, `lower`, `replace`).  They are written over
`List Char` with structural recursion so that the kernel can evaluate them.
-/

/-- Characters removed by Python `str.strip()` (ASCII whitespace). -/
def isPyWs (c : Char) : Bool :=
  c = ' ' || c = '\t' || c = '\n' || c = '\x0d' || c = '\x0b' || c = '\x0c'

/-- Python `str.strip()` on a char list. -/
def stripList (l : List Char) : List Char :=
  ((l.dropWhile isPyWs).reverse.dropWhile isPyWs).reverse

/-- Python `str.strip()`. -/
def pyStrip (s : String) : String :=
  String.mk (stripList s.toList)

/-- Python `str.split(sep)` with a one-character separator: splits at every
occurrence, keeping empty pieces (accumulator is the current piece, reversed). -/
def splitOnCharGo (sep : Char) : List Char → List Char → List (List Char)
  | [], acc => [acc.reverse]
  | c :: rest, acc =>
    if c = sep then acc.reverse :: splitOnCharGo sep rest []
    else splitOnCharGo sep rest (c :: acc)

def pySplit (sep : Char) (s : String) : List String :=
  (splitOnCharGo sep s.toList []).map String.mk

/-- Python `str.rstrip(".")`: removes every trailing dot. -/
def rstripDots (l : List Char) : List Char :=
  (l.reverse.dropWhile (fun c => c = '.')).reverse

/-- Python `str.lower()` (the script only lowercases ASCII hex digests). -/
def pyLower (s : String) : String :=
  String.mk (s.toList.map Char.toLower)

/-- Python `str.strip('"')`: removes every leading and trailing quote char. -/
def stripQuoteEnds (l : List Char) : List Char :=
  ((l.dropWhile (fun c => c = '"')).reverse.dropWhile (fun c => c = '"')).reverse

/-! ## Verdict engine (lines 174-181) -/

/-- Source `verdict_from_hash_and_skew` (lines 174-181), verbatim: the source
contains the redundant `abs(skew) <= FAIL_SKEW_SECONDS` branch whose result
is the same `"WARN"` as the final catch-all. -/
def verdict_from_hash_and_skew (hash_ok : Bool) (skew : Int) : String :=
  if !hash_ok then "FAIL"
  else if |skew| ≤ WARN_SKEW_SECONDS then "OK"
  else if |skew| ≤ FAIL_SKEW_SECONDS then "WARN"
  else "WARN"

/-! ## TXT payload normalization (lines 30, 75-87)

`_QUOTED_TXT_RE = re.compile(r'"([^"]*)"')` and `_clean_dig_txt`.
`findQuotedGo` is `_QUOTED_TXT_RE.findall`: it scans for an opening quote,
captures the (possibly empty) run of non-quote characters up to the next
closing quote, and continues after it; an unterminated final quote yields
no further match.  The `Bool` argument says whether we are inside quotes,
the accumulator holds the current segment reversed. -/

def findQuotedGo : List Char → Bool → List Char → List (List Char)
  | [], _, _ => []
  | c :: rest, false, _ =>
    if c = '"' then findQuotedGo rest true [] else findQuotedGo rest false []
  | c :: rest, true, acc =>
    if c = '"' then acc.reverse :: findQuotedGo rest false []
    else findQuotedGo rest true (c :: acc)

/-- All quoted segments of the payload, in order (`findall` of the regex). -/
def findQuoted (l : List Char) : List (List Char) :=
  findQuotedGo l false []

/-- Python `"".join(parts)`. -/
def joinSegs (parts : List (List Char)) : List Char :=
  parts.foldr (fun a b => a ++ b) []

/-- Source `_clean_dig_txt` (lines 75-87): strip the raw `dig` output; if any
quoted segments are present, join them with no separator and strip the
result; otherwise delete every literal quote character and strip. -/
def cleanDigTxt (out : String) : String :=
  let l := stripList out.toList
  if l = [] then ""
  else
    let parts := findQuoted l
    if parts ≠ [] then String.mk (stripList (joinSegs parts))
    else String.mk (stripList (l.filter (fun c => c ≠ '"')))

/-! ## Proof parsing (lines 33-37, 139-150) -/

/-- The `DnsProof` dataclass (lines 33-37). -/
structure DnsProof where
  ts_iso : String
  sha256 : String
  filename : Option String
  deriving DecidableEq

/-- If `l` starts with the literal `pat`, return the remainder. -/
def stripPre : List Char → List Char → Option (List Char)
  | [], l => some l
  | _ :: _, [] => none
  | p :: ps, c :: cs => if c = p then stripPre ps cs else none

def tsMarker : List Char := ['T', 'S', '=']

def shaMarker : List Char := ['S', 'H', 'A', '2', '5', '6', '=']

def fileMarker : List Char := ['F', 'I', 'L', 'E', '=']

/-- The regex character class `[^;]`. -/
def notSemi (c : Char) : Bool := c ≠ ';'

/-- One attempt of `re.search(r"M=([^;]+)", ...)` at the current position:
the marker must be followed by at least one non-`;` character, and the
capture is the maximal such run. -/
def tokAt (marker l : List Char) : Option (List Char) :=
  match stripPre marker l with
  | none => none
  | some t =>
    let tok := t.takeWhile notSemi
    if tok = [] then none else some tok

/-- Models `re.search`: try the position-wise matcher `f` at every
suffix, left to right, returning the first hit. -/
def scanFirst (f : List Char → Option (List Char)) : List Char → Option (List Char)
  | [] => none
  | c :: rest =>
    match f (c :: rest) with
    | some r => some r
    | none => scanFirst f rest

def tokSearch (marker : List Char) (l : List Char) : Option (List Char) :=
  scanFirst (tokAt marker) l

/-- Hexadecimal character class `[0-9a-fA-F]`. -/
def hexOk (c : Char) : Bool :=
  ('0' ≤ c && c ≤ '9') || ('a' ≤ c && c ≤ 'f') || ('A' ≤ c && c ≤ 'F')

/-- One attempt of `re.search(r"SHA256=([0-9a-fA-F]{64})", ...)` at the
current position: the marker must be followed by at least 64 hex
characters; the capture is the first 64 of them (the pattern has no
terminator, so a 65th hex character does not block the match). -/
def shaAt (l : List Char) : Option (List Char) :=
  match stripPre shaMarker l with
  | none => none
  | some t =>
    let h := t.take 64
    if h.length = 64 && h.all hexOk then some h else none

def shaSearch (l : List Char) : Option (List Char) :=
  scanFirst shaAt l

/-- The text `parse_dns_txt` actually matches on: `txt.strip().strip('"')`
(line 140). -/
def cleanedTxt (txt : String) : List Char :=
  stripQuoteEnds (stripList txt.toList)

/-- Source `parse_dns_txt` (lines 139-150): strip whitespace then quote ends,
regex-search for the `TS=`, `SHA256=` and `FILE=` tokens, fail unless the
first two are present; the hash is lowercased, the filename is optional. -/
def parse_dns_txt (txt : String) : Except String DnsProof :=
  let l := cleanedTxt txt
  match tokSearch tsMarker l, shaSearch l with
  | some ts, some sha =>
    .ok { ts_iso := String.mk ts
          sha256 := String.mk (sha.map Char.toLower)
          filename := (tokSearch fileMarker l).map String.mk }
  | _, _ => .error ("Unrecognized TXT format: " ++ String.mk l)

/-! ## Declarative token predicates

These restate, declaratively, what the two regex searches recognise; the
lemmas below prove them equivalent to the recursive searches.  They are the
vocabulary for the C5 theorems. -/

/-- The text contains `marker` followed by at least one non-`;` character
(what `re.search(r"M=([^;]+)")` accepts). -/
def hasTok (marker l : List Char) : Prop :=
  ∃ l1 c t, l = l1 ++ marker ++ c :: t ∧ c ≠ ';'

/-- The text contains `SHA256=` followed by a run of 64 hex characters
(what `re.search(r"SHA256=([0-9a-fA-F]{64})")` accepts — note: nothing
constrains the character after the 64th). -/
def hasShaRun (l : List Char) : Prop :=
  ∃ l1 h t, l = l1 ++ shaMarker ++ h ++ t ∧ h.length = 64 ∧ h.all hexOk = true

/-- Follows the claim's words (spec section 4.4), not the source: a hash
token is the run after `SHA256=` up to the next `;` or end of string, and
it must consist of exactly 64 hex characters. -/
def specShaTokAt (l : List Char) : Bool :=
  match stripPre shaMarker l with
  | none => false
  | some t =>
    let tok := t.takeWhile notSemi
    (tok.length == 64) && tok.all hexOk

/-- Follows the claim's words: the text contains a `SHA256=` hash token of
exactly 64 hex characters (`;`-terminated tokenization). -/
def specHasShaTok : List Char → Bool
  | [] => false
  | c :: rest => specShaTokAt (c :: rest) || specHasShaTok rest

/-- Follows the claim's words for C8, not the source: when quoted segments
are present, normalization returns exactly their concatenation in order
with no added separator (and nothing else). -/
def specQuotedConcat (s : String) : Option String :=
  let parts := findQuoted (stripList s.toList)
  if parts ≠ [] then some (String.mk (joinSegs parts)) else none

/-! ## Timestamp parsing (lines 153-155)

`iso_to_unix` calls `datetime.fromisoformat(ts_iso.replace("Z", "+00:00"))`
and then `int(dt.timestamp())`.  The embedding models the CPython semantics
of those two stdlib calls:

* `fromisoformat` accepts `YYYY-MM-DD[*HH:MM:SS[±HH:MM]]` (a subset of the
  full stdlib grammar: fractional seconds, reduced-precision times and
  offset seconds are not modelled); the separator `*` may be any character.
* `datetime.timestamp()` on an offset-aware value is the civil-time epoch
  count minus the offset; on a naive value CPython interprets the fields in
  the host's local timezone, modelled here by the explicit parameter
  `localOffset` (the host zone's UTC offset in seconds).
-/

/-- A parsed `datetime.datetime`: civil fields plus an optional fixed UTC
offset in seconds (`none` = timezone-naive). -/
structure PyDateTime where
  year : Nat
  month : Nat
  day : Nat
  hour : Nat
  minute : Nat
  second : Nat
  tzOffsetSeconds : Option Int
  deriving DecidableEq

def digitVal (c : Char) : Option Nat :=
  if '0' ≤ c ∧ c ≤ '9' then some (c.toNat - 48) else none

def parse2 : List Char → Option (Nat × List Char)
  | a :: b :: rest =>
    match digitVal a, digitVal b with
    | some x, some y => some (x * 10 + y, rest)
    | _, _ => none
  | _ => none

def parse4 : List Char → Option (Nat × List Char)
  | a :: b :: c :: d :: rest =>
    match digitVal a, digitVal b, digitVal c, digitVal d with
    | some x, some y, some z, some w => some (((x * 10 + y) * 10 + z) * 10 + w, rest)
    | _, _, _, _ => none
  | _ => none

def expectChar (c : Char) : List Char → Option (List Char)
  | x :: rest => if x = c then some rest else none
  | [] => none

def isLeap (y : Nat) : Bool :=
  (y % 4 == 0 && y % 100 != 0) || y % 400 == 0

def daysInMonth (y m : Nat) : Nat :=
  if m = 2 then (if isLeap y then 29 else 28)
  else if m = 4 ∨ m = 6 ∨ m = 9 ∨ m = 11 then 30
  else 31

/-- A `±HH:MM` UTC offset (or nothing), ending the string. -/
def parseTzOffset : List Char → Option (Option Int)
  | [] => some none
  | '+' :: rest =>
    match parse2 rest with
    | some (hh, rest) =>
      match expectChar ':' rest with
      | some rest =>
        match parse2 rest with
        | some (mm, rest) =>
          if rest = [] ∧ hh ≤ 23 ∧ mm ≤ 59 then some (some ((hh : Int) * 3600 + mm * 60))
          else none
        | none => none
      | none => none
    | none => none
  | '-' :: rest =>
    match parse2 rest with
    | some (hh, rest) =>
      match expectChar ':' rest with
      | some rest =>
        match parse2 rest with
        | some (mm, rest) =>
          if rest = [] ∧ hh ≤ 23 ∧ mm ≤ 59 then some (some (-((hh : Int) * 3600 + mm * 60)))
          else none
        | none => none
      | none => none
    | none => none
  | _ => none

/-- Models `datetime.fromisoformat` on a char list (see the module comment above
for the modelled grammar). -/
def fromisoformatL (l : List Char) : Option PyDateTime := do
  let (y, l) ← parse4 l
  let l ← expectChar '-' l
  let (mo, l) ← parse2 l
  let l ← expectChar '-' l
  let (d, l) ← parse2 l
  if y < 1 ∨ mo < 1 ∨ 12 < mo ∨ d < 1 ∨ daysInMonth y mo < d then none
  else
    match l with
    | [] => some ⟨y, mo, d, 0, 0, 0, none⟩
    | _sep :: l => do
      let (hh, l) ← parse2 l
      let l ← expectChar ':' l
      let (mi, l) ← parse2 l
      let l ← expectChar ':' l
      let (ss, l) ← parse2 l
      if 23 < hh ∨ 59 < mi ∨ 59 < ss then none
      else do
        let off ← parseTzOffset l
        some ⟨y, mo, d, hh, mi, ss, off⟩

/-- Days from 1970-01-01 to the given civil date (Gregorian).  All
divisions are on non-negative values for the years `fromisoformatL`
accepts, so Lean and C/Python division conventions agree. -/
def days_from_civil (y m d : Int) : Int :=
  let y := if m ≤ 2 then y - 1 else y
  let era := (if 0 ≤ y then y else y - 399) / 400
  let yoe := y - era * 400
  let doy := (153 * (if m ≤ 2 then m + 9 else m - 3) + 2) / 5 + d - 1
  let doe := yoe * 365 + yoe / 4 - yoe / 100 + doy
  era * 146097 + doe - 719468

/-- Seconds since the epoch of the civil fields read as UTC. -/
def PyDateTime.epochNaiveUTC (dt : PyDateTime) : Int :=
  days_from_civil dt.year dt.month dt.day * 86400
    + dt.hour * 3600 + dt.minute * 60 + dt.second

/-- Models `datetime.timestamp()`: aware values subtract their own offset; naive
values are interpreted in the host local timezone `localOffset`. -/
def PyDateTime.timestamp (localOffset : Int) (dt : PyDateTime) : Int :=
  dt.epochNaiveUTC - dt.tzOffsetSeconds.getD localOffset

/-- Python `str.replace("Z", "+00:00")`: substitutes every occurrence. -/
def replaceZ (l : List Char) : List Char :=
  l.foldr (fun c acc => (if c = 'Z' then ['+', '0', '0', ':', '0', '0'] else [c]) ++ acc) []

/-- Source `iso_to_unix` (lines 153-155).  `localOffset` is the host timezone's
UTC offset in seconds, which CPython applies to timezone-naive values;
`none` models the `ValueError` raised on unparsable input. -/
def iso_to_unix (localOffset : Int) (ts_iso : String) : Option Int :=
  (fromisoformatL (replaceZ ts_iso.toList)).map (PyDateTime.timestamp localOffset)

/-! ## Filesystem model and local matching (lines 61-72, 158-171)

The filesystem is an oracle: `existsPath` is `os.path.exists`, `glob dir`
is `glob.glob(os.path.join(dir, "heartbeats_*.json"))`, `mtime` is
`os.path.getmtime` (whole seconds), and `hashResult` is `sha256_file`
(`.error` = the I/O exception a read can raise). -/

structure FS where
  existsPath : String → Bool
  glob : String → List String
  mtime : String → Int
  hashResult : String → Except String String

/-- Models `os.path.join(export_dir, filename)` for the cases the script can
produce: an absolute second component replaces the first (`main` has
already right-stripped `/` from the directory). -/
def pathJoin (dir fn : String) : String :=
  if fn.toList.head? = some '/' then fn else dir ++ "/" ++ fn

/-- Source `newest_files` (lines 69-72): the glob hits sorted by modification
time, newest first (Python's stable `sort(key=..., reverse=True)`),
truncated to `n`. -/
def newest_files (fs : FS) (export_dir : String) (n : Nat) : List String :=
  (List.insertionSort (fun a b => fs.mtime b ≤ fs.mtime a) (fs.glob export_dir)).take n

/-- The tier-2 loop of `find_local_match` (lines 164-169): hash each
candidate, skipping unreadable files, and return the first whose lowercased
digest equals the proof hash. -/
def scanHash (fs : FS) (sha : String) : List String → Option String × Option String
  | [] => (none, none)
  | f :: rest =>
    match fs.hashResult f with
    | .error _ => scanHash fs sha rest
    | .ok hv => if pyLower hv = sha then (some f, some "matched_by_hash_scan") else scanHash fs sha rest

/-- Whether tier 2 would accept `f` (the line-166 test, as a Boolean). -/
def isHashMatch (fs : FS) (sha : String) (f : String) : Bool :=
  match fs.hashResult f with
  | .ok hv => if pyLower hv = sha then true else false
  | .error _ => false

/-- Source `find_local_match` (lines 158-171).  `if proof.filename:` is Python
truthiness: `None` and `""` both skip tier 1. -/
def find_local_match (fs : FS) (export_dir : String) (proof : DnsProof) :
    Option String × Option String :=
  match proof.filename with
  | some fn =>
    if fn ≠ "" then
      let candidate := pathJoin export_dir fn
      if fs.existsPath candidate then (some candidate, some "matched_by_filename")
      else scanHash fs proof.sha256 (newest_files fs export_dir LOOKBACK_FILES)
    else scanHash fs proof.sha256 (newest_files fs export_dir LOOKBACK_FILES)
  | none => scanHash fs proof.sha256 (newest_files fs export_dir LOOKBACK_FILES)

/-- Tier 1 does not fire: no filename hint, an empty hint, or a hint whose
path does not exist (as a Boolean, for decidable hypotheses). -/
def tier1Skipped (fs : FS) (export_dir : String) (proof : DnsProof) : Bool :=
  match proof.filename with
  | none => true
  | some fn => fn = "" || !fs.existsPath (pathJoin export_dir fn)

/-! ## Nameserver resolution and TXT fetch (lines 90-136)

`run cmd` either returns the command's stripped stdout or raises; each
`dig` invocation is therefore an `Except String String` oracle:
`nsQuery` is `run(["dig", "+short", "NS", zone])`, `txtQuery ns` is
`run(["dig", f"@{ns}", "+short", "TXT", name, ...])` and `sysQuery` is the
fallback `run(["dig", "+short", "TXT", name, ...])` with no `@server`. -/

/-- Source `_get_authoritative_ns` (lines 90-93) applied to the stdout of the NS
query: split lines, drop blanks, strip each and remove the trailing root
dot.  (`str.splitlines` is modelled as splitting on `'\n'`; `run` already
stripped the ends, and `dig` emits plain newlines.) -/
def _get_authoritative_ns (digOut : String) : List String :=
  ((splitOnCharGo '\n' digOut.toList []).filter (fun x => stripList x ≠ [])).map
    (fun x => String.mk (rstripDots (stripList x)))

/-- The override branch of lines 108-110: split the stripped
`POA_DNS_NS_OVERRIDE` on commas, drop entries that are blank after
stripping, strip the rest and remove trailing dots. -/
def parseNsOverride (ov : List Char) : List String :=
  ((splitOnCharGo ',' ov []).filter (fun x => stripList x ≠ [])).map
    (fun x => String.mk (rstripDots (stripList x)))

/-- The nameserver-resolution step of `dig_txt_authoritative`
(lines 108-112): a non-empty override wins and the NS query is not run;
otherwise the result of the NS query (which may raise) is parsed. -/
def resolveNsList (nsOverrideEnv : String) (nsQuery : Except String String) :
    Except String (List String) :=
  let ov := stripList nsOverrideEnv.toList
  if ov ≠ [] then .ok (parseNsOverride ov)
  else
    match nsQuery with
    | .ok out => .ok (_get_authoritative_ns out)
    | .error e => .error e

/-- Follows the claim's words for C9, not the source: the override list
"returned verbatim" — the comma-separated entries as supplied (whitespace
trimming being part of reading the configuration value). -/
def specVerbatimOverride (nsOverrideEnv : String) : List String :=
  (splitOnCharGo ',' (stripList nsOverrideEnv.toList) []).map
    (fun x => String.mk (stripList x))

/-- The errors `dig_txt_authoritative` can terminate with: a propagated
`RuntimeError` from `run` (NS lookup or fallback query), or the final
`RuntimeError(f"No TXT returned for {name} ... (zone={zone}) ...")`,
modelled with its interpolated data as fields. -/
inductive FetchErr where
  | cmdFailed (msg : String)
  | noTxt (name : String) (zone : String) (lastErr : Option String)
  deriving DecidableEq

/-- The per-nameserver loop (lines 114-125): try each server; a raise is
caught and recorded as the last error; an empty payload is skipped; the
first non-empty cleaned payload wins.  On exhaustion the recorded last
error is returned. -/
def tryNsLoop (txtQuery : String → Except String String) :
    List String → Option String → Except (Option String) (String × String)
  | [], lastErr => .error lastErr
  | ns :: rest, lastErr =>
    match txtQuery ns with
    | .error e => tryNsLoop txtQuery rest (some e)
    | .ok out =>
      let txt := cleanDigTxt out
      if txt ≠ "" then .ok (txt, ns) else tryNsLoop txtQuery rest lastErr

/-- The `last_err` bookkeeping of the loop, in isolation: the error of the
last raising query (queries that return without raising leave it alone). -/
def lastErrObserved (txtQuery : String → Except String String) :
    List String → Option String → Option String
  | [], acc => acc
  | ns :: rest, acc =>
    match txtQuery ns with
    | .error e => lastErrObserved txtQuery rest (some e)
    | .ok _ => lastErrObserved txtQuery rest acc

/-- Whether querying `ns` either raises or yields an empty cleaned payload
(the two ways a nameserver can fail to produce the TXT record). -/
def queryFailsOrEmpty (txtQuery : String → Except String String) (ns : String) : Bool :=
  match txtQuery ns with
  | .error _ => true
  | .ok out => cleanDigTxt out = ""

/-- The tail of `dig_txt_authoritative` once the nameserver list is known
(lines 114-136): the per-nameserver loop, then the system-resolver
fallback gated on `POA_DNS_ALLOW_SYSTEM_RESOLVER == "1"` (whose `run` call
is NOT caught and so can propagate), then the final `RuntimeError`. -/
def digTxtAfterNs (name zone allowSystemEnv : String)
    (txtQuery : String → Except String String) (sysQuery : Except String String)
    (ns_list : List String) : Except FetchErr (String × String) :=
  match tryNsLoop txtQuery ns_list none with
  | .ok r => .ok r
  | .error lastErr =>
    if allowSystemEnv = "1" then
      match sysQuery with
      | .error e => .error (.cmdFailed e)
      | .ok out =>
        let txt := cleanDigTxt out
        if txt ≠ "" then .ok (txt, "SYSTEM_RESOLVER")
        else .error (.noTxt name zone lastErr)
    else .error (.noTxt name zone lastErr)

/-- Source `dig_txt_authoritative` (lines 96-136).  `nsOverrideEnv` and
`allowSystemEnv` are the values of `POA_DNS_NS_OVERRIDE` (default `""`)
and `POA_DNS_ALLOW_SYSTEM_RESOLVER` (default `"0"`). -/
def dig_txt_authoritative (name zone : String) (nsOverrideEnv allowSystemEnv : String)
    (nsQuery : Except String String) (txtQuery : String → Except String String)
    (sysQuery : Except String String) : Except FetchErr (String × String) :=
  match resolveNsList nsOverrideEnv nsQuery with
  | .error e => .error (.cmdFailed e)
  | .ok ns_list => digTxtAfterNs name zone allowSystemEnv txtQuery sysQuery ns_list

/-! ## The orchestrator (lines 184-231)

`mainRun` is `main()` from the TXT fetch on (the config/env reading that
produces `dns_name`, `dns_zone` and `export_dir` only feeds these
arguments).  Each stage that can raise is a `match` on its `Except`/
`Option`; a `.error` result models the exception propagating out of
`main`.  `processExitCode` is the process-level outcome of
`sys.exit(main())` (line 231): the returned int for a normal return, and
CPython's exit status `1` for an uncaught exception. -/

inductive MainErr where
  | fetchFailed (e : FetchErr)
  | parseFailed (msg : String)
  | badTimestamp
  | ioFailed (msg : String)
  deriving DecidableEq

def mainRun (fetch : Except FetchErr (String × String)) (localOffset : Int)
    (fs : FS) (export_dir : String) : Except MainErr Nat :=
  match fetch with
  | .error e => .error (.fetchFailed e)
  | .ok (dns_txt, _used_ns) =>
    match parse_dns_txt dns_txt with
    | .error m => .error (.parseFailed m)
    | .ok proof =>
      match iso_to_unix localOffset proof.ts_iso with
      | none => .error .badTimestamp
      | some dns_ts_unix =>
        match find_local_match fs export_dir proof with
        | (none, _) => .ok 2
        | (some match_path, _how) =>
          match fs.hashResult match_path with
          | .error m => .error (.ioFailed m)
          | .ok hvRaw =>
            let hash_ok := pyLower hvRaw = proof.sha256
            let skew := fs.mtime match_path - dns_ts_unix
            let v := verdict_from_hash_and_skew hash_ok skew
            .ok (if v = "OK" then 0 else if v = "WARN" then 1 else 2)

def processExitCode (r : Except MainErr Nat) : Nat :=
  match r with
  | .ok n => n
  | .error _ => 1

/-- A trivial filesystem for closed instances: nothing exists, nothing
globs, nothing hashes. -/
def fsTriv : FS :=
  { existsPath := fun _ => false
    glob := fun _ => []
    mtime := fun _ => 0
    hashResult := fun _ => .error "io" }

/-! ## Concrete fixtures for the closed witness instances -/

/-- C6 fixture: the hinted file `d/hint.json` exists, while a different
file `other` is the one whose hash equals the proof hash. -/
def fsW6 : FS :=
  { existsPath := fun p => p = "d/hint.json"
    glob := fun _ => ["other"]
    mtime := fun _ => 0
    hashResult := fun f => if f = "other" then .ok "AA" else .error "io" }

def proofW6 : DnsProof :=
  { ts_iso := "2024-01-01T00:00:00Z", sha256 := "aa", filename := some "hint.json" }

/-- C7 fixture: 301 glob candidates; only the oldest one (`old`, mtime 0,
behind 300 strictly newer files) hashes to the proof hash. -/
def fsW7 : FS :=
  { existsPath := fun _ => false
    glob := fun _ => "old" :: List.replicate 300 "new"
    mtime := fun s => if s = "old" then 0 else 1
    hashResult := fun f => if f = "old" then .ok "AA" else .ok "ff" }

def proofW7 : DnsProof :=
  { ts_iso := "2024-01-01T00:00:00Z", sha256 := "aa", filename := none }

/-- C10 fixture: the filename hint points at a missing path, and the glob
holds one file whose hash matches. -/
def fsW10 : FS :=
  { existsPath := fun _ => false
    glob := fun _ => ["a"]
    mtime := fun _ => 0
    hashResult := fun _ => .ok "AA" }

def proofW10 : DnsProof :=
  { ts_iso := "2024-01-01T00:00:00Z", sha256 := "aa", filename := some "missing.json" }

/-- C2 fixture: the first authoritative server answers with an empty
payload, the second raises. -/
def txtQW : String → Except String String :=
  fun ns => if ns = "ns1.example" then .ok "" else .error "timeout"

def nsOutW : String := "ns1.example.\nns2.example."

/-- C8 fixture: the spec's multi-segment example, a 64-hex hash split
across the quoted boundary. -/
def sEx : String :=
  "\"TS=2024-01-01T00:00:00Z;SHA\" \"256=" ++ String.mk (List.replicate 64 'a') ++ ";FILE=x.json\""

/-- C5 fixture: a well-formed payload with no `FILE=` token. -/
def txtW5 : String :=
  "TS=2024-01-01T00:00:00Z;SHA256=" ++ String.mk (List.replicate 64 'a')

/-- C5 counterexample input: `SHA256=` followed by 65 hex characters, so
the `;`-terminated token is 65 characters long — not exactly 64. -/
def txtBad65 : String :=
  "TS=t;SHA256=" ++ String.mk (List.replicate 65 'a')

/-! ## Helper lemmas -/

theorem stripPre_eq_some_iff (p : List Char) : ∀ l t, stripPre p l = some t ↔ l = p ++ t := by
  induction p with
  | nil =>
    intro l t
    simp [stripPre, eq_comm]
  | cons ph pt ih =>
    intro l t
    cases l with
    | nil => simp [stripPre]
    | cons c cs =>
      simp only [stripPre, List.cons_append]
      by_cases h : c = ph
      · subst h
        rw [if_pos rfl, ih]
        simp
      · rw [if_neg h]
        simp only [List.cons.injEq]
        constructor
        · intro hfalse
          exact absurd hfalse (by simp)
        · rintro ⟨rfl, -⟩
          exact absurd rfl h

theorem tokAt_of_none {marker l : List Char} (h : stripPre marker l = none) :
    tokAt marker l = none := by
  unfold tokAt
  rw [h]

theorem tokAt_of_some {marker l t0 : List Char} (h : stripPre marker l = some t0) :
    tokAt marker l =
      (if t0.takeWhile notSemi = [] then none
       else some (t0.takeWhile notSemi)) := by
  unfold tokAt
  rw [h]

theorem tokAt_isSome_iff (marker l : List Char) :
    (tokAt marker l).isSome = true ↔ ∃ c t, l = marker ++ c :: t ∧ c ≠ ';' := by
  cases hsp : stripPre marker l with
  | none =>
    rw [tokAt_of_none hsp]
    simp only [Option.isSome_none, Bool.false_eq_true, false_iff]
    rintro ⟨c, t, rfl, -⟩
    rw [(stripPre_eq_some_iff marker _ (c :: t)).mpr rfl] at hsp
    exact absurd hsp (by simp)
  | some t0 =>
    have hl : l = marker ++ t0 := (stripPre_eq_some_iff marker l t0).mp hsp
    rw [tokAt_of_some hsp]
    subst hl
    cases t0 with
    | nil =>
      rw [List.takeWhile_nil, if_pos rfl]
      simp only [Option.isSome_none, Bool.false_eq_true, false_iff]
      rintro ⟨c, t, heq, -⟩
      have hnil : ([] : List Char) = c :: t := List.append_cancel_left heq
      exact absurd hnil (by simp)
    | cons c0 t0' =>
      by_cases hc : c0 = ';'
      · subst hc
        have htw : List.takeWhile notSemi (';' :: t0') = [] := by
          rw [List.takeWhile_cons]
          simp [notSemi]
        rw [htw, if_pos rfl]
        simp only [Option.isSome_none, Bool.false_eq_true, false_iff]
        rintro ⟨c, t, heq, hcne⟩
        have hco : (';' :: t0' : List Char) = c :: t := List.append_cancel_left heq
        cases hco
        exact absurd rfl hcne
      · have htw : List.takeWhile notSemi (c0 :: t0') = c0 :: List.takeWhile notSemi t0' := by
          rw [List.takeWhile_cons, if_pos (by simp [notSemi, hc])]
        rw [htw, if_neg (by simp)]
        simp only [Option.isSome_some, true_iff]
        exact ⟨c0, t0', rfl, hc⟩

theorem shaAt_of_none {l : List Char} (h : stripPre shaMarker l = none) :
    shaAt l = none := by
  unfold shaAt
  rw [h]

theorem shaAt_of_some {l t0 : List Char} (h : stripPre shaMarker l = some t0) :
    shaAt l =
      (if ((t0.take 64).length = 64 && (t0.take 64).all hexOk) = true
       then some (t0.take 64) else none) := by
  unfold shaAt
  rw [h]

theorem shaAt_eq_some (l h : List Char) (hs : shaAt l = some h) :
    ∃ t, l = shaMarker ++ h ++ t ∧ h.length = 64 ∧ h.all hexOk = true := by
  cases hsp : stripPre shaMarker l with
  | none =>
    rw [shaAt_of_none hsp] at hs
    exact absurd hs (by simp)
  | some t0 =>
    rw [shaAt_of_some hsp] at hs
    have hl : l = shaMarker ++ t0 := (stripPre_eq_some_iff shaMarker l t0).mp hsp
    by_cases hcond : ((t0.take 64).length = 64 && (t0.take 64).all hexOk) = true
    · rw [if_pos hcond] at hs
      cases hs
      have h1 : (t0.take 64).length = 64 := by
        have := (Bool.and_eq_true _ _).mp hcond
        simpa using this.1
      have h2 : (t0.take 64).all hexOk = true := ((Bool.and_eq_true _ _).mp hcond).2
      refine ⟨t0.drop 64, ?_, h1, h2⟩
      rw [hl, List.append_assoc, List.take_append_drop]
    · rw [if_neg hcond] at hs
      exact absurd hs (by simp)

theorem shaAt_isSome_iff (l : List Char) :
    (shaAt l).isSome = true ↔
      ∃ h t, l = shaMarker ++ h ++ t ∧ h.length = 64 ∧ h.all hexOk = true := by
  constructor
  · intro hi
    cases hs : shaAt l with
    | none => rw [hs] at hi; exact absurd hi (by simp)
    | some h =>
      obtain ⟨t, ht, h1, h2⟩ := shaAt_eq_some l h hs
      exact ⟨h, t, ht, h1, h2⟩
  · rintro ⟨h, t, rfl, h1, h2⟩
    have hsp : stripPre shaMarker (shaMarker ++ h ++ t) = some (h ++ t) :=
      (stripPre_eq_some_iff shaMarker _ _).mpr (by rw [List.append_assoc])
    rw [shaAt_of_some hsp]
    have htake : (h ++ t).take 64 = h := by
      rw [← h1]
      exact List.take_left h t
    rw [htake, if_pos (by simp [h1, h2])]
    rfl

theorem scanFirst_cons_of_some {f : List Char → Option (List Char)} {c : Char}
    {rest r : List Char} (h : f (c :: rest) = some r) :
    scanFirst f (c :: rest) = some r := by
  unfold scanFirst
  rw [h]

theorem scanFirst_cons_of_none {f : List Char → Option (List Char)} {c : Char}
    {rest : List Char} (h : f (c :: rest) = none) :
    scanFirst f (c :: rest) = scanFirst f rest := by
  conv_lhs => rw [scanFirst]
  rw [h]

theorem scanFirst_isSome_iff (f : List Char → Option (List Char)) (hf : f [] = none) :
    ∀ l, (scanFirst f l).isSome = true ↔ ∃ l1 l2, l = l1 ++ l2 ∧ (f l2).isSome = true := by
  intro l
  induction l with
  | nil =>
    simp only [scanFirst, Option.isSome_none, Bool.false_eq_true, false_iff]
    rintro ⟨l1, l2, hl, hi⟩
    have h2 : l2 = [] := (List.append_eq_nil.mp hl.symm).2
    rw [h2, hf] at hi
    exact absurd hi (by simp)
  | cons c rest ih =>
    cases hfc : f (c :: rest) with
    | some r =>
      rw [scanFirst_cons_of_some hfc]
      simp only [Option.isSome_some, true_iff]
      exact ⟨[], c :: rest, rfl, by rw [hfc]; rfl⟩
    | none =>
      rw [scanFirst_cons_of_none hfc, ih]
      constructor
      · rintro ⟨l1, l2, rfl, hi⟩
        exact ⟨c :: l1, l2, rfl, hi⟩
      · rintro ⟨l1, l2, hl, hi⟩
        cases l1 with
        | nil =>
          simp only [List.nil_append] at hl
          rw [← hl, hfc] at hi
          exact absurd hi (by simp)
        | cons c1 l1' =>
          simp only [List.cons_append, List.cons.injEq] at hl
          exact ⟨l1', l2, hl.2, hi⟩

theorem scanFirst_eq_some (f : List Char → Option (List Char)) :
    ∀ l v, scanFirst f l = some v → ∃ l1 l2, l = l1 ++ l2 ∧ f l2 = some v := by
  intro l
  induction l with
  | nil =>
    intro v hv
    exact absurd hv (by simp [scanFirst])
  | cons c rest ih =>
    intro v hv
    cases hfc : f (c :: rest) with
    | some r =>
      rw [scanFirst_cons_of_some hfc] at hv
      cases hv
      exact ⟨[], c :: rest, rfl, hfc⟩
    | none =>
      rw [scanFirst_cons_of_none hfc] at hv
      obtain ⟨l1, l2, rfl, h2⟩ := ih v hv
      exact ⟨c :: l1, l2, rfl, h2⟩

theorem tokAt_nil (marker : List Char) (hm : marker ≠ []) : tokAt marker [] = none := by
  cases marker with
  | nil => exact absurd rfl hm
  | cons p ps => rfl

theorem tokSearch_isSome_iff (marker : List Char) (hm : marker ≠ []) (l : List Char) :
    (tokSearch marker l).isSome = true ↔ hasTok marker l := by
  unfold tokSearch hasTok
  rw [scanFirst_isSome_iff (tokAt marker) (tokAt_nil marker hm) l]
  constructor
  · rintro ⟨l1, l2, rfl, hi⟩
    obtain ⟨c, t, rfl, hc⟩ := (tokAt_isSome_iff marker l2).mp hi
    exact ⟨l1, c, t, by rw [List.append_assoc], hc⟩
  · rintro ⟨l1, c, t, rfl, hc⟩
    exact ⟨l1, marker ++ c :: t, by rw [List.append_assoc],
      (tokAt_isSome_iff marker _).mpr ⟨c, t, rfl, hc⟩⟩

theorem shaSearch_isSome_iff (l : List Char) :
    (shaSearch l).isSome = true ↔ hasShaRun l := by
  unfold shaSearch hasShaRun
  rw [scanFirst_isSome_iff shaAt rfl l]
  constructor
  · rintro ⟨l1, l2, rfl, hi⟩
    obtain ⟨h, t, rfl, h1, h2⟩ := (shaAt_isSome_iff l2).mp hi
    exact ⟨l1, h, t, by simp [List.append_assoc], h1, h2⟩
  · rintro ⟨l1, h, t, rfl, h1, h2⟩
    refine ⟨l1, shaMarker ++ h ++ t, by simp [List.append_assoc], ?_⟩
    exact (shaAt_isSome_iff _).mpr ⟨h, t, rfl, h1, h2⟩

theorem shaSearch_eq_some (l h : List Char) (hs : shaSearch l = some h) :
    ∃ l1 t, l = l1 ++ shaMarker ++ h ++ t ∧ h.length = 64 ∧ h.all hexOk = true := by
  obtain ⟨l1, l2, rfl, h2⟩ := scanFirst_eq_some shaAt l h hs
  obtain ⟨t, rfl, hl, ha⟩ := shaAt_eq_some l2 h h2
  exact ⟨l1, t, by simp [List.append_assoc], hl, ha⟩

theorem scanHash_cons_err {fs : FS} {sha f : String} {rest : List String} {e : String}
    (h : fs.hashResult f = .error e) :
    scanHash fs sha (f :: rest) = scanHash fs sha rest := by
  conv_lhs => rw [scanHash]
  rw [h]

theorem scanHash_cons_ok {fs : FS} {sha f : String} {rest : List String} {hv : String}
    (h : fs.hashResult f = .ok hv) :
    scanHash fs sha (f :: rest) =
      (if pyLower hv = sha then (some f, some "matched_by_hash_scan")
       else scanHash fs sha rest) := by
  conv_lhs => rw [scanHash]
  rw [h]

theorem scanHash_eq_none (fs : FS) (sha : String) :
    ∀ l, (∀ f ∈ l, isHashMatch fs sha f = false) → scanHash fs sha l = (none, none) := by
  intro l
  induction l with
  | nil => intro _; rfl
  | cons f rest ih =>
    intro hall
    have hf := hall f (by simp)
    have hrest := fun g hg => hall g (List.mem_cons_of_mem f hg)
    unfold isHashMatch at hf
    cases hq : fs.hashResult f with
    | error e =>
      rw [scanHash_cons_err hq]
      exact ih hrest
    | ok hv =>
      rw [hq] at hf
      have hf' : (if pyLower hv = sha then true else false) = false := hf
      rw [scanHash_cons_ok hq]
      rw [if_neg (fun hcontra => by rw [if_pos hcontra] at hf'; exact absurd hf' (by simp))]
      exact ih hrest

theorem scanHash_finds (fs : FS) (sha : String) :
    ∀ l, (∃ f ∈ l, isHashMatch fs sha f = true) →
      ∃ g, scanHash fs sha l = (some g, some "matched_by_hash_scan") := by
  intro l
  induction l with
  | nil =>
    rintro ⟨f, hf, -⟩
    exact absurd hf (by simp)
  | cons f rest ih =>
    rintro ⟨g, hg, hmatch⟩
    cases hq : fs.hashResult f with
    | error e =>
      rw [scanHash_cons_err hq]
      rcases List.mem_cons.mp hg with rfl | hg'
      · unfold isHashMatch at hmatch
        rw [hq] at hmatch
        exact absurd hmatch (by simp)
      · exact ih ⟨g, hg', hmatch⟩
    | ok hv =>
      rw [scanHash_cons_ok hq]
      by_cases hcmp : pyLower hv = sha
      · exact ⟨f, by rw [if_pos hcmp]⟩
      · rw [if_neg hcmp]
        rcases List.mem_cons.mp hg with rfl | hg'
        · unfold isHashMatch at hmatch
          rw [hq] at hmatch
          have hm' : (if pyLower hv = sha then true else false) = true := hmatch
          rw [if_neg hcmp] at hm'
          exact absurd hm' (by simp)
        · exact ih ⟨g, hg', hmatch⟩

theorem countP_lt_of_mem_take {α : Type} (key : α → Int) (m : α) :
    ∀ (l : List α) (k : Nat), List.Pairwise (fun a b => key b ≤ key a) l →
      m ∈ l.take k → l.countP (fun y => decide (key m < key y)) < k := by
  intro l
  induction l with
  | nil =>
    intro k _ hm
    simp at hm
  | cons a t ih =>
    intro k hp hm
    cases k with
    | zero => simp at hm
    | succ k' =>
      rw [List.take_succ_cons] at hm
      rw [List.countP_cons]
      rcases List.mem_cons.mp hm with rfl | hm'
      · have h0 : t.countP (fun y => decide (key m < key y)) = 0 :=
          List.countP_eq_zero.mpr (fun y hy => by
            have hle := (List.pairwise_cons.mp hp).1 y hy
            simp only [decide_eq_true_eq]
            omega)
        rw [h0, if_neg (by simp)]
        omega
      · have h1 := ih k' (List.pairwise_cons.mp hp).2 hm'
        have h2 : (if (decide (key m < key a)) = true then 1 else 0) ≤ 1 := by
          split
          · omega
          · omega
        omega

theorem tryNsLoop_cons_err {q : String → Except String String} {ns : String}
    {rest : List String} {acc : Option String} {e : String} (h : q ns = .error e) :
    tryNsLoop q (ns :: rest) acc = tryNsLoop q rest (some e) := by
  conv_lhs => rw [tryNsLoop]
  rw [h]

theorem tryNsLoop_cons_ok {q : String → Except String String} {ns : String}
    {rest : List String} {acc : Option String} {out : String} (h : q ns = .ok out) :
    tryNsLoop q (ns :: rest) acc =
      (if cleanDigTxt out ≠ "" then .ok (cleanDigTxt out, ns) else tryNsLoop q rest acc) := by
  conv_lhs => rw [tryNsLoop]
  rw [h]

theorem lastErrObserved_cons_err {q : String → Except String String} {ns : String}
    {rest : List String} {acc : Option String} {e : String} (h : q ns = .error e) :
    lastErrObserved q (ns :: rest) acc = lastErrObserved q rest (some e) := by
  conv_lhs => rw [lastErrObserved]
  rw [h]

theorem lastErrObserved_cons_ok {q : String → Except String String} {ns : String}
    {rest : List String} {acc : Option String} {out : String} (h : q ns = .ok out) :
    lastErrObserved q (ns :: rest) acc = lastErrObserved q rest acc := by
  conv_lhs => rw [lastErrObserved]
  rw [h]

theorem tryNsLoop_all_fail (q : String → Except String String) :
    ∀ l acc, (∀ ns ∈ l, queryFailsOrEmpty q ns = true) →
      tryNsLoop q l acc = .error (lastErrObserved q l acc) := by
  intro l
  induction l with
  | nil => intro acc _; rfl
  | cons ns rest ih =>
    intro acc hall
    have hns := hall ns (by simp)
    have hrest := fun g hg => hall g (List.mem_cons_of_mem ns hg)
    unfold queryFailsOrEmpty at hns
    cases hq : q ns with
    | error e =>
      rw [tryNsLoop_cons_err hq, lastErrObserved_cons_err hq]
      exact ih (some e) hrest
    | ok out =>
      rw [hq] at hns
      have hempty : cleanDigTxt out = "" := by simpa using hns
      rw [tryNsLoop_cons_ok hq, lastErrObserved_cons_ok hq]
      rw [if_neg (by simp [hempty])]
      exact ih acc hrest

theorem dig_txt_of_resolve_ok {name zone ov allow : String}
    {nsQ : Except String String} {txtQ : String → Except String String}
    {sysQ : Except String String} {ns_list : List String}
    (h : resolveNsList ov nsQ = .ok ns_list) :
    dig_txt_authoritative name zone ov allow nsQ txtQ sysQ
      = digTxtAfterNs name zone allow txtQ sysQ ns_list := by
  unfold dig_txt_authoritative
  rw [h]

theorem digTxtAfterNs_loop_err {name zone allow : String}
    {txtQ : String → Except String String} {sysQ : Except String String}
    {ns_list : List String} {le : Option String}
    (h : tryNsLoop txtQ ns_list none = .error le) (hallow : allow ≠ "1") :
    digTxtAfterNs name zone allow txtQ sysQ ns_list = .error (.noTxt name zone le) := by
  unfold digTxtAfterNs
  split
  · rename_i r heq
    rw [h] at heq
    exact absurd heq (by simp)
  · rename_i lastErr heq
    rw [h] at heq
    cases heq
    rw [if_neg hallow]

/-! ## Claim theorems -/

/-- Claim C1: for every `hashMatches` and `skewSeconds`,
`verdict_from_hash_and_skew` returns `FAIL` when the hash does not match,
regardless of skew; `OK` when it matches and `|skew| ≤ 600`; and `WARN`
when it matches and `|skew| > 600` — both the moderate band
(`|skew| ≤ 3600`) and the extreme band (`|skew| > 3600`) yield `WARN`,
and a matching hash never yields `FAIL`. -/
theorem c1_verdict_matrix (skew : Int) :
    verdict_from_hash_and_skew false skew = "FAIL"
    ∧ (|skew| ≤ 600 → verdict_from_hash_and_skew true skew = "OK")
    ∧ (600 < |skew| ∧ |skew| ≤ 3600 → verdict_from_hash_and_skew true skew = "WARN")
    ∧ (3600 < |skew| → verdict_from_hash_and_skew true skew = "WARN")
    ∧ verdict_from_hash_and_skew true skew ≠ "FAIL" := by
  have hv : ∀ s : Int, verdict_from_hash_and_skew true s =
      if |s| ≤ 600 then "OK" else "WARN" := by
    intro s
    simp [verdict_from_hash_and_skew, WARN_SKEW_SECONDS, FAIL_SKEW_SECONDS]
  refine ⟨rfl, ?_, ?_, ?_, ?_⟩
  · intro h
    rw [hv, if_pos h]
  · rintro ⟨h1, -⟩
    rw [hv, if_neg (by omega)]
  · intro h
    rw [hv, if_neg (by omega)]
  · rw [hv]
    split
    · simp
    · simp

theorem c1_verdict_matrix_witness :
    (3600 < |(3601 : Int)| ∧ verdict_from_hash_and_skew true 3601 = "WARN")
    ∧ (|(600 : Int)| ≤ 600 ∧ verdict_from_hash_and_skew true 600 = "OK") :=
  ⟨⟨by decide, (c1_verdict_matrix 3601).2.2.2.1 (by decide)⟩,
   ⟨by decide, (c1_verdict_matrix 600).2.1 (by decide)⟩⟩

/-- Claim C9 (amended): with a non-empty nameserver override, the
resolution step of `dig_txt_authoritative` returns the comma-split entries
of the override — whitespace-stripped, trailing root dots removed, blank
entries dropped — and performs no NS lookup: its result does not depend on
the NS-query oracle at all.  (The claim's "verbatim" fails: see
`c9_counterexample`.) -/
theorem c9_override_no_lookup (nsOverrideEnv : String)
    (h : stripList nsOverrideEnv.toList ≠ []) :
    ∀ q1 q2 : Except String String,
      resolveNsList nsOverrideEnv q1 = resolveNsList nsOverrideEnv q2
      ∧ resolveNsList nsOverrideEnv q1
          = .ok (parseNsOverride (stripList nsOverrideEnv.toList)) := by
  intro q1 q2
  unfold resolveNsList
  rw [if_pos h, if_pos h]
  exact ⟨rfl, rfl⟩

theorem c9_override_no_lookup_witness :
    (stripList (" ns1 , ns2. ".toList) ≠ [])
    ∧ resolveNsList " ns1 , ns2. " (.error "ns lookup failed") = .ok ["ns1", "ns2"] :=
  ⟨by decide,
   ((c9_override_no_lookup " ns1 , ns2. " (by decide)) (.error "ns lookup failed") (.ok "")).2⟩

/-- Claim C9, counterexample to "returns that list verbatim": an override
entry carrying a trailing root dot (`ns1.example.com.`) is returned with
the dot stripped, not verbatim. -/
theorem c9_counterexample :
    resolveNsList "ns1.example.com." (.error "unused") = .ok ["ns1.example.com"]
    ∧ specVerbatimOverride "ns1.example.com." = ["ns1.example.com."]
    ∧ (["ns1.example.com"] : List String) ≠ ["ns1.example.com."] :=
  ⟨rfl, rfl, by decide⟩

/-- Claim C2: with no override set and the system-resolver fallback
disabled, if every authoritative nameserver query raises or yields an
empty payload, `dig_txt_authoritative` fails with the `RuntimeError`
carrying the queried name, the zone, and the last per-nameserver error
observed — and its result is the same for every possible system-resolver
answer, i.e. the system default resolver is never queried for the TXT
record. -/
theorem c2_authoritative_only (name zone nsOverrideEnv allowSystemEnv nsOut : String)
    (txtQuery : String → Except String String)
    (hov : stripList nsOverrideEnv.toList = [])
    (hallow : allowSystemEnv ≠ "1")
    (hfail : ∀ ns ∈ _get_authoritative_ns nsOut, queryFailsOrEmpty txtQuery ns = true) :
    ∀ sysQuery : Except String String,
      dig_txt_authoritative name zone nsOverrideEnv allowSystemEnv (.ok nsOut) txtQuery sysQuery
        = .error (.noTxt name zone
            (lastErrObserved txtQuery (_get_authoritative_ns nsOut) none)) := by
  intro sysQuery
  have hres : resolveNsList nsOverrideEnv (.ok nsOut) = .ok (_get_authoritative_ns nsOut) := by
    unfold resolveNsList
    rw [hov]
    simp
  rw [dig_txt_of_resolve_ok hres]
  exact digTxtAfterNs_loop_err
    (tryNsLoop_all_fail txtQuery (_get_authoritative_ns nsOut) none hfail) hallow

theorem c2_authoritative_only_witness :
    (∀ ns ∈ _get_authoritative_ns nsOutW, queryFailsOrEmpty txtQW ns = true)
    ∧ dig_txt_authoritative "poa.example" "example" "" "0" (.ok nsOutW) txtQW (.ok "\"TS=x\"")
        = .error (.noTxt "poa.example" "example" (some "timeout")) :=
  ⟨by decide,
   c2_authoritative_only "poa.example" "example" "" "0" nsOutW txtQW
     (by decide) (by decide) (by decide) (.ok "\"TS=x\"")⟩

/-- Claim C8 (amended): normalizing a raw TXT payload concatenates all
double-quoted segments found, in their original order, with no added
separator, and then trims surrounding whitespace from the result; if the
payload contains no quoted segments, every literal quote character is
stripped and surrounding whitespace is trimmed.  (The claim as stated —
the result being exactly the concatenation — fails on a segment with
leading/trailing whitespace: see `c8_counterexample`.) -/
theorem c8_normalization (s : String) :
    (findQuoted (stripList s.toList) ≠ [] →
      cleanDigTxt s = String.mk (stripList (joinSegs (findQuoted (stripList s.toList)))))
    ∧ (findQuoted (stripList s.toList) = [] →
      cleanDigTxt s = String.mk (stripList ((stripList s.toList).filter (fun c => c ≠ '"')))) := by
  constructor
  · intro h1
    have h0 : stripList s.toList ≠ [] := by
      intro h0
      rw [h0] at h1
      exact h1 rfl
    simp only [cleanDigTxt]
    rw [if_neg h0, if_pos h1]
  · intro h1
    simp only [cleanDigTxt]
    by_cases h0 : stripList s.toList = []
    · rw [if_pos h0, h0]
      rfl
    · rw [if_neg h0, if_neg (fun hcon => hcon h1)]

theorem c8_normalization_witness :
    findQuoted (stripList sEx.toList) ≠ []
    ∧ cleanDigTxt sEx
        = "TS=2024-01-01T00:00:00Z;SHA256=" ++ String.mk (List.replicate 64 'a') ++ ";FILE=x.json" := by
  have h1 : findQuoted (stripList sEx.toList) ≠ [] := by decide
  refine ⟨h1, ?_⟩
  rw [(c8_normalization sEx).1 h1]
  decide

/-- Claim C8, counterexample to "returns exactly the concatenation": for
the payload `" x"` the single quoted segment is `␣x`, so the claimed
result is `␣x`, but `_clean_dig_txt` strips the joined result and returns
`x`. -/
theorem c8_counterexample :
    cleanDigTxt "\" x\"" = "x"
    ∧ specQuotedConcat "\" x\"" = some " x"
    ∧ ("x" : String) ≠ " x" :=
  ⟨rfl, rfl, by decide⟩

/-- Unfolds `parse_dns_txt` over its two regex searches. -/
theorem parse_dns_txt_eq (txt : String) :
    parse_dns_txt txt =
      match tokSearch tsMarker (cleanedTxt txt), shaSearch (cleanedTxt txt) with
      | some ts, some sha =>
        .ok { ts_iso := String.mk ts
              sha256 := String.mk (sha.map Char.toLower)
              filename := (tokSearch fileMarker (cleanedTxt txt)).map String.mk }
      | _, _ => .error ("Unrecognized TXT format: " ++ String.mk (cleanedTxt txt)) := rfl

/-- Claim C5 (amended): `parse_dns_txt` fails exactly when the cleaned
text lacks a `TS=` marker followed by a non-`;` character, or lacks a
`SHA256=` marker followed by a run of (at least) 64 hex characters; on
success the returned hash is the first 64 hex characters after such a
`SHA256=`, lower-cased; and the absence of a `FILE=` token is not an
error — the parsed proof then has no filename.  (The claim's "exactly 64
hexadecimal characters" tokenization fails on the code: see
`c5_counterexample`.) -/
theorem c5_parse_characterization (txt : String) :
    ((parse_dns_txt txt).isOk = true
      ↔ (hasTok tsMarker (cleanedTxt txt) ∧ hasShaRun (cleanedTxt txt)))
    ∧ (∀ p, parse_dns_txt txt = .ok p →
        ∃ l1 h t, cleanedTxt txt = l1 ++ shaMarker ++ h ++ t ∧ h.length = 64
          ∧ h.all hexOk = true ∧ p.sha256 = String.mk (h.map Char.toLower))
    ∧ (hasTok tsMarker (cleanedTxt txt) ∧ hasShaRun (cleanedTxt txt)
        ∧ ¬ hasTok fileMarker (cleanedTxt txt) →
        ∃ p, parse_dns_txt txt = .ok p ∧ p.filename = none) := by
  have hts_ne : tsMarker ≠ ([] : List Char) := by decide
  have hfile_ne : fileMarker ≠ ([] : List Char) := by decide
  cases hts : tokSearch tsMarker (cleanedTxt txt) with
  | none =>
    have hnotok : ¬ hasTok tsMarker (cleanedTxt txt) := fun hh => by
      have hi := (tokSearch_isSome_iff tsMarker hts_ne (cleanedTxt txt)).mpr hh
      rw [hts] at hi
      exact absurd hi (by simp)
    refine ⟨?_, ?_, ?_⟩
    · constructor
      · intro hok
        rw [parse_dns_txt_eq txt, hts] at hok
        cases hsha : shaSearch (cleanedTxt txt) with
        | none => rw [hsha] at hok; exact absurd hok Bool.false_ne_true
        | some sha => rw [hsha] at hok; exact absurd hok Bool.false_ne_true
      · rintro ⟨h1, -⟩
        exact absurd h1 hnotok
    · intro p hp
      rw [parse_dns_txt_eq txt, hts] at hp
      cases hsha : shaSearch (cleanedTxt txt) with
      | none => rw [hsha] at hp; exact Except.noConfusion hp
      | some sha => rw [hsha] at hp; exact Except.noConfusion hp
    · rintro ⟨h1, -, -⟩
      exact absurd h1 hnotok
  | some ts =>
    cases hsha : shaSearch (cleanedTxt txt) with
    | none =>
      have hnosha : ¬ hasShaRun (cleanedTxt txt) := fun hh => by
        have hi := (shaSearch_isSome_iff (cleanedTxt txt)).mpr hh
        rw [hsha] at hi
        exact absurd hi (by simp)
      refine ⟨?_, ?_, ?_⟩
      · constructor
        · intro hok
          rw [parse_dns_txt_eq txt, hts, hsha] at hok
          exact absurd hok Bool.false_ne_true
        · rintro ⟨-, h2⟩
          exact absurd h2 hnosha
      · intro p hp
        rw [parse_dns_txt_eq txt, hts, hsha] at hp
        exact Except.noConfusion hp
      · rintro ⟨-, h2, -⟩
        exact absurd h2 hnosha
    | some sha =>
      have hok : parse_dns_txt txt
          = .ok { ts_iso := String.mk ts
                  sha256 := String.mk (sha.map Char.toLower)
                  filename := (tokSearch fileMarker (cleanedTxt txt)).map String.mk } := by
        rw [parse_dns_txt_eq txt, hts, hsha]
      refine ⟨?_, ?_, ?_⟩
      · constructor
        · intro _
          refine ⟨?_, ?_⟩
          · exact (tokSearch_isSome_iff tsMarker hts_ne _).mp (by rw [hts]; rfl)
          · exact (shaSearch_isSome_iff _).mp (by rw [hsha]; rfl)
        · intro _
          rw [hok]
          rfl
      · intro p hp
        rw [hok] at hp
        cases hp
        obtain ⟨l1, t, hdecomp, hlen, hhex⟩ := shaSearch_eq_some _ sha hsha
        exact ⟨l1, sha, t, hdecomp, hlen, hhex, rfl⟩
      · rintro ⟨-, -, hnofile⟩
        have hfile_none : tokSearch fileMarker (cleanedTxt txt) = none := by
          cases hf : tokSearch fileMarker (cleanedTxt txt) with
          | none => rfl
          | some v =>
            have hi : (tokSearch fileMarker (cleanedTxt txt)).isSome = true := by
              rw [hf]
              rfl
            exact absurd ((tokSearch_isSome_iff fileMarker hfile_ne _).mp hi) hnofile
        refine ⟨_, hok, ?_⟩
        simp [hfile_none]

theorem c5_parse_characterization_witness :
    (hasTok tsMarker (cleanedTxt txtW5) ∧ hasShaRun (cleanedTxt txtW5))
    ∧ ∃ p, parse_dns_txt txtW5 = .ok p ∧ p.filename = none := by
  have hts_ne : tsMarker ≠ ([] : List Char) := by decide
  have hfile_ne : fileMarker ≠ ([] : List Char) := by decide
  have h1 : hasTok tsMarker (cleanedTxt txtW5) :=
    (tokSearch_isSome_iff tsMarker hts_ne _).mp (by decide)
  have h2 : hasShaRun (cleanedTxt txtW5) :=
    (shaSearch_isSome_iff _).mp (by decide)
  have h3 : ¬ hasTok fileMarker (cleanedTxt txtW5) := fun hh =>
    absurd ((tokSearch_isSome_iff fileMarker hfile_ne _).mpr hh) (by decide)
  exact ⟨⟨h1, h2⟩, (c5_parse_characterization txtW5).2.2 ⟨h1, h2, h3⟩⟩

/-- Claim C5, counterexample to the "exactly 64 hexadecimal characters"
tokenization: on `TS=t;SHA256=` followed by 65 `a`s, the `;`-terminated
hash token has 65 characters — not exactly 64 — so the claim demands a
format error, yet `parse_dns_txt` succeeds, silently truncating the hash
to the first 64 characters. -/
theorem c5_counterexample :
    parse_dns_txt txtBad65
        = .ok { ts_iso := "t"
                sha256 := String.mk (List.replicate 64 'a')
                filename := none }
    ∧ specHasShaTok (cleanedTxt txtBad65) = false :=
  ⟨rfl, rfl⟩

/-- Claim C4 (amended): `iso_to_unix` first substitutes `+00:00` for every
`Z`, so a trailing-`Z` string parses as offset-aware UTC and its epoch
value is independent of the host timezone; a string with an explicit
offset uses that offset; but a bare datetime with no offset marker stays
timezone-naive and CPython interprets it in the HOST LOCAL timezone
(`localOffset`), not UTC.  The theorem characterizes every accepted input:
the result is the civil-UTC epoch minus the value's own offset when one is
present, and minus the host offset when none is.  (The claim's "a bare
datetime is interpreted as UTC, never as the host's local time zone" fails:
see `c4_counterexample`.) -/
theorem c4_timestamp_semantics (off : Int) (s : String) (dt : PyDateTime)
    (h : fromisoformatL (replaceZ s.toList) = some dt) :
    iso_to_unix off s = some (dt.epochNaiveUTC - dt.tzOffsetSeconds.getD off)
    ∧ (∀ off2 : Int, dt.tzOffsetSeconds.isSome = true → iso_to_unix off s = iso_to_unix off2 s) := by
  constructor
  · unfold iso_to_unix
    rw [h]
    rfl
  · intro off2 hsome
    unfold iso_to_unix
    rw [h]
    show some (dt.epochNaiveUTC - dt.tzOffsetSeconds.getD off)
        = some (dt.epochNaiveUTC - dt.tzOffsetSeconds.getD off2)
    cases hoff : dt.tzOffsetSeconds with
    | none =>
      rw [hoff] at hsome
      exact absurd hsome (by simp)
    | some o =>
      rfl

theorem c4_timestamp_semantics_witness :
    fromisoformatL (replaceZ ("2024-01-01T00:00:00Z".toList))
        = some ⟨2024, 1, 1, 0, 0, 0, some 0⟩
    ∧ iso_to_unix 3600 "2024-01-01T00:00:00Z" = some 1704067200 :=
  ⟨rfl, (c4_timestamp_semantics 3600 "2024-01-01T00:00:00Z" ⟨2024, 1, 1, 0, 0, 0, some 0⟩ rfl).1⟩

/-- Claim C4, counterexample: the bare datetime `2024-01-01T00:00:00` (no
offset marker, no `Z` for the substitution to act on) is parsed
timezone-naive, and its epoch value depends on the host timezone — on a
UTC+1 host it is 1704063600, an hour earlier than the UTC reading
1704067200 — contradicting "interpreted as UTC, never as the host's local
time zone". -/
theorem c4_counterexample :
    iso_to_unix 3600 "2024-01-01T00:00:00" = some 1704063600
    ∧ iso_to_unix 0 "2024-01-01T00:00:00" = some 1704067200
    ∧ iso_to_unix 3600 "2024-01-01T00:00:00" ≠ iso_to_unix 0 "2024-01-01T00:00:00" :=
  ⟨rfl, rfl, by decide⟩

/-- Claim C6: when the proof carries a (non-empty) filename hint and
`exportDir/filename` exists, `find_local_match` returns that path tagged
`matched_by_filename` — for EVERY filesystem oracle with that `existsPath`,
in particular whatever the hash oracle says about any other file, so no
hash is computed and the tier-2 scan is never attempted. -/
theorem c6_filename_priority (fs : FS) (dir fn : String) (proof : DnsProof)
    (hfn : proof.filename = some fn) (hne : fn ≠ "")
    (hex : fs.existsPath (pathJoin dir fn) = true) :
    find_local_match fs dir proof = (some (pathJoin dir fn), some "matched_by_filename") := by
  simp only [find_local_match, hfn]
  rw [if_pos hne, if_pos hex]

theorem c6_filename_priority_witness :
    isHashMatch fsW6 proofW6.sha256 "other" = true
    ∧ find_local_match fsW6 "d" proofW6 = (some "d/hint.json", some "matched_by_filename") :=
  ⟨by decide, c6_filename_priority fsW6 "d" "hint.json" proofW6 rfl (by decide) (by decide)⟩

/-- Claim C10: when the proof carries a (non-empty) filename hint naming a
path that does NOT exist, `find_local_match` neither fails nor reports "no
match" outright: it runs exactly the tier-2 bounded hash scan, and if some
file among the newest `LOOKBACK_FILES` hash-matches, it returns a file
tagged `matched_by_hash_scan`. -/
theorem c10_fallthrough (fs : FS) (dir fn : String) (proof : DnsProof)
    (hfn : proof.filename = some fn) (hne : fn ≠ "")
    (hnex : fs.existsPath (pathJoin dir fn) = false) :
    find_local_match fs dir proof
        = scanHash fs proof.sha256 (newest_files fs dir LOOKBACK_FILES)
    ∧ ((∃ f ∈ newest_files fs dir LOOKBACK_FILES, isHashMatch fs proof.sha256 f = true) →
        ∃ g, find_local_match fs dir proof = (some g, some "matched_by_hash_scan")) := by
  have heq : find_local_match fs dir proof
      = scanHash fs proof.sha256 (newest_files fs dir LOOKBACK_FILES) := by
    simp only [find_local_match, hfn]
    rw [if_pos hne, if_neg (by rw [hnex]; exact Bool.false_ne_true)]
  refine ⟨heq, ?_⟩
  intro hex
  rw [heq]
  exact scanHash_finds fs proof.sha256 _ hex

theorem c10_fallthrough_witness :
    fsW10.existsPath (pathJoin "d" "missing.json") = false
    ∧ ∃ g, find_local_match fsW10 "d" proofW10 = (some g, some "matched_by_hash_scan") :=
  ⟨rfl,
   (c10_fallthrough fsW10 "d" "missing.json" proofW10 rfl (by decide) rfl).2
     ⟨"a", by decide, by decide⟩⟩

/-- Claim C7: the tier-2 scan hashes only the `LOOKBACK_FILES = 300` most
recently modified `heartbeats_*.json` candidates.  If tier 1 does not fire,
the directory holds more than 300 candidates, and the only hash-matching
file `m` is older than 300 of them (at least 300 candidates have strictly
greater mtime), then `find_local_match` reports no match at all. -/
theorem c7_scan_bound (fs : FS) (dir : String) (proof : DnsProof) (m : String)
    (ht1 : tier1Skipped fs dir proof = true)
    (hcount : 300 < (fs.glob dir).length)
    (hm : m ∈ fs.glob dir)
    (hmatch : isHashMatch fs proof.sha256 m = true)
    (honly : ∀ f ∈ fs.glob dir, isHashMatch fs proof.sha256 f = true → f = m)
    (hold : 300 ≤ (fs.glob dir).countP (fun y => decide (fs.mtime m < fs.mtime y))) :
    find_local_match fs dir proof = (none, none) := by
  haveI hTot : IsTotal String (fun a b => fs.mtime b ≤ fs.mtime a) :=
    ⟨fun a b => le_total (fs.mtime b) (fs.mtime a)⟩
  haveI hTrans : IsTrans String (fun a b => fs.mtime b ≤ fs.mtime a) :=
    ⟨fun a b c h1 h2 => le_trans h2 h1⟩
  have hperm : (List.insertionSort (fun a b => fs.mtime b ≤ fs.mtime a) (fs.glob dir)).Perm
      (fs.glob dir) :=
    List.perm_insertionSort (fun a b => fs.mtime b ≤ fs.mtime a) (fs.glob dir)
  have hsorted : List.Pairwise (fun a b => fs.mtime b ≤ fs.mtime a)
      (List.insertionSort (fun a b => fs.mtime b ≤ fs.mtime a) (fs.glob dir)) :=
    List.sorted_insertionSort (fun a b => fs.mtime b ≤ fs.mtime a) (fs.glob dir)
  have hnone : ∀ f ∈ newest_files fs dir LOOKBACK_FILES,
      isHashMatch fs proof.sha256 f = false := by
    intro f hf
    by_contra hcon
    have hft : isHashMatch fs proof.sha256 f = true := by
      cases hval : isHashMatch fs proof.sha256 f with
      | false => exact absurd hval hcon
      | true => rfl
    have hf_sorted : f ∈ List.insertionSort (fun a b => fs.mtime b ≤ fs.mtime a) (fs.glob dir) :=
      List.take_subset LOOKBACK_FILES _ hf
    have hf_glob : f ∈ fs.glob dir := hperm.mem_iff.mp hf_sorted
    have hfm : f = m := honly f hf_glob hft
    subst hfm
    have hlt := countP_lt_of_mem_take fs.mtime f
      (List.insertionSort (fun a b => fs.mtime b ≤ fs.mtime a) (fs.glob dir))
      LOOKBACK_FILES hsorted hf
    rw [hperm.countP_eq] at hlt
    unfold LOOKBACK_FILES at hlt
    omega
  cases hfil : proof.filename with
  | none =>
    simp only [find_local_match, hfil]
    exact scanHash_eq_none fs proof.sha256 _ hnone
  | some fn =>
    have ht1' : fn = "" ∨ fs.existsPath (pathJoin dir fn) = false := by
      simp only [tier1Skipped, hfil, Bool.or_eq_true, decide_eq_true_eq,
        Bool.not_eq_true'] at ht1
      exact ht1
    by_cases hfe : fn = ""
    · simp only [find_local_match, hfil]
      rw [if_neg (fun hcontra => hcontra hfe)]
      exact scanHash_eq_none fs proof.sha256 _ hnone
    · have hnex : fs.existsPath (pathJoin dir fn) = false := by
        rcases ht1' with h | h
        · exact absurd h hfe
        · exact h
      simp only [find_local_match, hfil]
      rw [if_pos hfe, if_neg (by rw [hnex]; exact Bool.false_ne_true)]
      exact scanHash_eq_none fs proof.sha256 _ hnone

set_option maxRecDepth 100000 in
theorem c7_scan_bound_witness :
    (300 < (fsW7.glob "d").length
      ∧ isHashMatch fsW7 proofW7.sha256 "old" = true
      ∧ 300 ≤ (fsW7.glob "d").countP (fun y => decide (fsW7.mtime "old" < fsW7.mtime y)))
    ∧ find_local_match fsW7 "d" proofW7 = (none, none) :=
  ⟨⟨by decide, by decide, by decide⟩,
   c7_scan_bound fsW7 "d" proofW7 "old" (by decide) (by decide) (by decide) (by decide)
     (by decide) (by decide)⟩

/-- Claim C3 (amended): a completed run exits with `0` when the verdict is
`OK`, `1` when it is `WARN`, `2` when it is `FAIL`, and "no local match
found" also exits `2`; but an unrecoverable fetch, parse or timestamp
error propagates out of `main()` as an uncaught exception, so the process
exits with CPython's status `1`, not `2`.  (The claim's "fetch/parse
errors exit 2" fails: see `c3_counterexample`.) -/
theorem c3_exit_codes (off : Int) (fs : FS) (dir : String) :
    (∀ e, processExitCode (mainRun (.error e) off fs dir) = 1)
    ∧ (∀ txt ns m, parse_dns_txt txt = .error m →
        processExitCode (mainRun (.ok (txt, ns)) off fs dir) = 1)
    ∧ (∀ txt ns proof ts, parse_dns_txt txt = .ok proof →
        iso_to_unix off proof.ts_iso = some ts →
        (find_local_match fs dir proof).1 = none →
        processExitCode (mainRun (.ok (txt, ns)) off fs dir) = 2)
    ∧ (∀ txt ns proof ts p how hv, parse_dns_txt txt = .ok proof →
        iso_to_unix off proof.ts_iso = some ts →
        find_local_match fs dir proof = (some p, how) →
        fs.hashResult p = .ok hv →
        processExitCode (mainRun (.ok (txt, ns)) off fs dir) =
          (if verdict_from_hash_and_skew (decide (pyLower hv = proof.sha256))
                (fs.mtime p - ts) = "OK" then 0
           else if verdict_from_hash_and_skew (decide (pyLower hv = proof.sha256))
                (fs.mtime p - ts) = "WARN" then 1
           else 2)) := by
  refine ⟨?_, ?_, ?_, ?_⟩
  · intro e
    rfl
  · intro txt ns m hp
    simp only [mainRun, hp]
    rfl
  · intro txt ns proof ts hp hiso hfind
    cases hf : find_local_match fs dir proof with
    | mk fst snd =>
      rw [hf] at hfind
      simp only at hfind
      subst hfind
      simp only [mainRun, hp, hiso, hf]
      rfl
  · intro txt ns proof ts p how hv hp hiso hfind hhash
    simp only [mainRun, hp, hiso, hfind, hhash]
    rfl

theorem c3_exit_codes_witness :
    parse_dns_txt "x" = .error "Unrecognized TXT format: x"
    ∧ processExitCode (mainRun (.ok ("x", "ns1")) 0 fsTriv "d") = 1 :=
  ⟨rfl, (c3_exit_codes 0 fsTriv "d").2.1 "x" "ns1" "Unrecognized TXT format: x" rfl⟩

/-- Claim C3, counterexample to "any unrecoverable fetch or parse error
terminates the process with exit code 2": `main()` never catches the
fetcher's `RuntimeError`, so `sys.exit(main())` is never reached and the
interpreter exits with status 1 — the WARN code, not 2. -/
theorem c3_counterexample :
    processExitCode (mainRun (.error (.noTxt "poa.example" "example" none)) 0 fsTriv "d") = 1
    ∧ (1 : Nat) ≠ 2 :=
  ⟨rfl, by decide⟩
